import Mathlib

/-!
Verification of the connection-establishment and argument-partitioning logic
of the neovim-qt launcher (`src/gui/main.cpp`), as a shallow embedding.

The embedding models:
  * `QList::indexOf` (first index of a token, `-1` when absent) as `qIndexOf`;
  * the argument partition of `main` (lines 106-124) as `partition`;
  * `QCommandLineParser` (an external Qt collaborator), restricted to the
    options declared in `main`, as `processArgs`; its behavior is modelled
    from Qt's documented semantics for boolean and single-value options;
  * the runtime-path fallback of `main` (lines 167-199) as
    `injectRuntimeTokens`, faithful to both build configurations of the
    `NVIM_QT_RUNTIME_PATH` macro: with the macro undefined the
    preprocessor removes the `else if ... else` of lines 173-179 and the
    relative-directory block of lines 180-199 runs unconditionally. The
    filesystem is an oracle `isDir : String → Bool` and the directory
    computed relative to the executable is abstracted as `relDir`; the
    first-match resolver of the spec is kept as `resolveRuntime` for
    comparison;
  * the remainder of `main` (help handling, mutual exclusivity, the four
    connection modes) as `runMain`, whose result is either a `RunExit`
    (process terminated before establishment) or the single `Transport`
    action performed.
-/

deriving instance DecidableEq for Except

namespace NeovimQt

/-- First index of `t` in a list, or `none`. Helper for `qIndexOf`. -/
def firstIdx (t : String) : List String → Option Nat
  | [] => none
  | a :: rest => if a = t then some 0 else (firstIdx t rest).map (· + 1)

/-- Model of `QList<QString>::indexOf(t)`: index of the first occurrence of `t`,
or `-1` when `t` does not occur. -/
def qIndexOf (t : String) (xs : List String) : Int :=
  match firstIdx t xs with
  | some n => (n : Int)
  | none => -1

/-- The fixed true-color directive `main` seeds `neovimArgs` with
(lines 109-110). -/
def fixedDirective : List String := ["--cmd", "set termguicolors"]

/-- The three argument groups produced by `main` (lines 106-124), together
with the stored index of the first `"--"` token of the full vector. -/
structure Partition where
  launcherArgs : List String
  spawnArgs : List String
  neovimArgs : List String
  positionalMarker : Int
deriving DecidableEq

/-- The argument partition of `main.cpp` lines 106-124.
`raw` is `app->arguments()` (program name included, as in the code). -/
def partition (raw : List String) : Partition :=
  if qIndexOf "--spawn" raw ≠ -1 ∧
      (qIndexOf "--spawn" raw < qIndexOf "--" raw ∨ qIndexOf "--" raw = -1) then
    { launcherArgs := raw.take ((qIndexOf "--spawn" raw).toNat + 1)
      spawnArgs := raw.drop ((qIndexOf "--spawn" raw).toNat + 1)
      neovimArgs := fixedDirective
      positionalMarker := qIndexOf "--" raw }
  else if qIndexOf "--" raw ≠ -1 then
    { launcherArgs := raw.take (qIndexOf "--" raw).toNat
      spawnArgs := []
      neovimArgs := fixedDirective ++ raw.drop ((qIndexOf "--" raw).toNat + 1)
      positionalMarker := qIndexOf "--" raw }
  else
    { launcherArgs := raw
      spawnArgs := []
      neovimArgs := fixedDirective
      positionalMarker := qIndexOf "--" raw }

/-- The parser state after `QCommandLineParser::process`, restricted to the
options declared in `main` (lines 81-104): value options `nvim`, `geometry`,
`server`; boolean options `maximized`, `fullscreen`, `embed`, `spawn`; the
help option (`-h` / `--help`) added by `addHelpOption`. For a value option
set several times, `QCommandLineParser::value` returns the last value, so
only the last is kept. -/
structure ParserState where
  embed : Bool := false
  spawn : Bool := false
  help : Bool := false
  maximized : Bool := false
  fullscreen : Bool := false
  server : Option String := none
  nvim : Option String := none
  geometry : Option String := none
  positional : List String := []
deriving DecidableEq

/-- Names of the declared boolean options (long and short forms). -/
def boolOptionNames : List String := ["maximized", "fullscreen", "embed", "spawn", "help", "h"]

/-- Names of the declared single-value options. -/
def valueOptionNames : List String := ["nvim", "geometry", "server"]

/-- Record a boolean option occurrence. -/
def setBool (ps : ParserState) (name : String) : ParserState :=
  if name = "embed" then { ps with embed := true }
  else if name = "spawn" then { ps with spawn := true }
  else if name = "maximized" then { ps with maximized := true }
  else if name = "fullscreen" then { ps with fullscreen := true }
  else { ps with help := true }

/-- Record a value option occurrence (last occurrence wins). -/
def setValue (ps : ParserState) (name val : String) : ParserState :=
  if name = "nvim" then { ps with nvim := some val }
  else if name = "geometry" then { ps with geometry := some val }
  else { ps with server := some val }

/-- Split a character list at the first `=`: the part before it and,
when `=` occurs, the part after it. Helper for `splitEq`. -/
def splitEqChars : List Char → List Char × Option (List Char)
  | [] => ([], none)
  | c :: rest =>
    if c = '=' then ([], some rest)
    else
      let r := splitEqChars rest
      (c :: r.1, r.2)

/-- Split an option body at the first `=`, as Qt does for `--opt=value`. -/
def splitEq (s : String) : String × Option String :=
  let r := splitEqChars s.data
  (String.mk r.1, r.2.map String.mk)

/-- Whether `s` begins with `"--"` (lone `"--"` tokens are handled
before this test in `parseLoop`). -/
def isLongOpt (s : String) : Bool :=
  match s.data with
  | '-' :: '-' :: _ => true
  | _ => false

/-- Whether `s` begins with `-` and is not the lone `"-"` token. -/
def isShortOpt (s : String) : Bool :=
  match s.data with
  | '-' :: _ :: _ => true
  | _ => false

/-- Modelled from Qt's documented `QCommandLineParser::parse` semantics over
the declared options: `"--"` ends option parsing (everything after it is
positional); `--name` / `--name=value` are long options; a single dash
introduces compacted short options (only `h` is declared); a lone `-` and
any other token are positional arguments; an unknown option, a value given
to a boolean option, or a missing value for a value option is a parse
error, on which `process` prints the error and exits. -/
def parseLoop : List String → ParserState → Option String → Except String ParserState
  | [], ps, none => .ok ps
  | [], _, some name => .error ("Missing value after option " ++ name)
  | a :: rest, ps, some name => parseLoop rest (setValue ps name a) none
  | a :: rest, ps, none =>
    if a = "--" then
      .ok { ps with positional := ps.positional ++ rest }
    else if isLongOpt a then
      let nv := splitEq (String.mk (a.data.drop 2))
      if nv.1 ∈ boolOptionNames then
        match nv.2 with
        | some _ => .error ("Unexpected value after boolean option " ++ nv.1)
        | none => parseLoop rest (setBool ps nv.1) none
      else if nv.1 ∈ valueOptionNames then
        match nv.2 with
        | some v => parseLoop rest (setValue ps nv.1 v) none
        | none => parseLoop rest ps (some nv.1)
      else .error ("Unknown option " ++ nv.1)
    else if isShortOpt a then
      if (a.data.drop 1).all (fun c => c = 'h') then
        parseLoop rest { ps with help := true } none
      else .error ("Unknown option " ++ a)
    else
      parseLoop rest { ps with positional := ps.positional ++ [a] } none

/-- Model of `parser.process(args)`: the first element of `args` is the program name
and is skipped, the rest are parsed. -/
def processArgs (args : List String) : Except String ParserState :=
  match args with
  | [] => .ok {}
  | _ :: rest => parseLoop rest {} none

/-- The single transport action `main` performs on a successful run:
`NeovimConnector::fromStdinOut`, `::connectToNeovim(addr)`, or
`::spawn(args, exe)`. -/
inductive Transport where
  | stdinOut : Transport
  | connectTo : String → Transport
  | spawnProc : List String → String → Transport
deriving DecidableEq

/-- Ways `main` terminates before establishing a transport: a parse error
from `process`, the help path (`showHelp`, exit code 0, no warning), or a
configuration error (`qWarning` followed by `showHelp`). -/
inductive RunExit where
  | parseError : String → RunExit
  | helpExit : RunExit
  | configError : String → RunExit
deriving DecidableEq

/-- The ordered fallback chain as specified (first existing directory
wins): the environment override `NVIM_QT_RUNTIME_PATH` (empty string when
unset), the compile-time `NVIM_QT_RUNTIME_PATH` macro (`none` when the
build does not define it), then the directory computed relative to the
executable (abstracted as `relDir`); `none` when no candidate exists. The
source's actual insertion logic is `injectRuntimeTokens`; the two agree
whenever the compile-time macro is defined and whenever at most one
candidate exists, but not in a macro-undefined build where both the
environment and the relative candidate exist. -/
def resolveRuntime (isDir : String → Bool) (envRuntime : String)
    (ctRuntime : Option String) (relDir : String) : Option String :=
  if isDir envRuntime then some envRuntime
  else
    match ctRuntime with
    | some ct =>
      if isDir ct then some ct
      else if isDir relDir then some relDir else none
    | none => if isDir relDir then some relDir else none

/-- Prepending of a resolved directory as the spec describes it: two
synthetic tokens referencing the directory when one was found, nothing
otherwise. Used to compare `injectRuntimeTokens` with `resolveRuntime`. -/
def injectRuntime (r : Option String) (neovimArgs : List String) : List String :=
  match r with
  | some p => "--cmd" :: ("set rtp+=" ++ p) :: neovimArgs
  | none => neovimArgs

/-- The runtime-path insertion of `main` (lines 167-199), faithful to the
preprocessor. When the build defines the compile-time
`NVIM_QT_RUNTIME_PATH` macro (`ctRuntime = some ct`) the three candidates
form one `if / else if / else` chain and the first existing directory
inserts its `--cmd`/`set rtp+=` pair at positions 0 and 1. When the macro
is undefined (`ctRuntime = none`) the preprocessor removes the
`else if ... } else` of lines 173-179, so the relative-directory block of
lines 180-199 is a free-standing compound statement that always runs: the
environment candidate and the relative candidate are tested independently
and each existing one inserts its own pair, the relative pair (inserted
second, at position 0) ending up in front. -/
def injectRuntimeTokens (isDir : String → Bool) (envRuntime : String)
    (ctRuntime : Option String) (relDir : String)
    (neovimArgs : List String) : List String :=
  match ctRuntime with
  | some ct =>
    if isDir envRuntime then
      "--cmd" :: ("set rtp+=" ++ envRuntime) :: neovimArgs
    else if isDir ct then
      "--cmd" :: ("set rtp+=" ++ ct) :: neovimArgs
    else if isDir relDir then
      "--cmd" :: ("set rtp+=" ++ relDir) :: neovimArgs
    else neovimArgs
  | none =>
    let afterEnv :=
      if isDir envRuntime then
        "--cmd" :: ("set rtp+=" ++ envRuntime) :: neovimArgs
      else neovimArgs
    if isDir relDir then
      "--cmd" :: ("set rtp+=" ++ relDir) :: afterEnv
    else afterEnv

/-- Map `true ↦ 1, false ↦ 0`: the implicit bool-to-int conversion in
`parser.isSet("server") + parser.isSet("embed") + parser.isSet("spawn")`. -/
def b2n (b : Bool) : Nat := if b then 1 else 0

/-- The decision logic of `main` (lines 106-204): partition the raw
arguments, run the flag parser over `launcherArgs`, handle help, check
mutual exclusivity, then select the connection mode. The result is the
transport action performed, or the exit taken before any transport. -/
def runMain (isDir : String → Bool) (envRuntime : String)
    (ctRuntime : Option String) (relDir : String) (raw : List String) :
    Except RunExit Transport :=
  let part := partition raw
  match processArgs part.launcherArgs with
  | .error e => .error (.parseError e)
  | .ok ps =>
    if ps.help then .error .helpExit
    else if b2n ps.server.isSome + b2n ps.embed + b2n ps.spawn > 1 then
      .error (.configError "Options --server, --spawn and --embed are mutually exclusive\n")
    else if ps.embed then
      if ¬ ps.positional.isEmpty ∨ part.positionalMarker ≠ -1 then
        .error (.configError "--embed does not accept positional arguments\n")
      else .ok .stdinOut
    else if ps.server.isSome then
      if ¬ ps.positional.isEmpty ∨ part.positionalMarker ≠ -1 then
        .error (.configError "--server does not accept positional arguments\n")
      else .ok (.connectTo (ps.server.getD ""))
    else if ps.spawn then
      match part.spawnArgs with
      | [] => .error (.configError "--spawn requires at least one positional argument")
      | exe :: restArgs => .ok (.spawnProc restArgs exe)
    else
      let nArgs := injectRuntimeTokens isDir envRuntime ctRuntime relDir part.neovimArgs
      .ok (.spawnProc (nArgs ++ ps.positional) (ps.nvim.getD "nvim"))

/-- A filesystem oracle on which no path is a directory. -/
def noDir : String → Bool := fun _ => false

/-- A filesystem oracle on which exactly `/env` and `/ct` are directories. -/
def dirOracle : String → Bool := fun s =>
  if s = "/env" then true else if s = "/ct" then true else false

/-- A filesystem oracle on which exactly `/env` and `/rel` are directories. -/
def envRelOracle : String → Bool := fun s =>
  if s = "/env" then true else if s = "/rel" then true else false

theorem firstIdx_eq_none_iff (t : String) (xs : List String) :
    firstIdx t xs = none ↔ t ∉ xs := by
  induction xs with
  | nil => simp [firstIdx]
  | cons a rest ih =>
    by_cases h : a = t
    · subst h
      simp [firstIdx]
    · simp only [firstIdx, if_neg h, List.mem_cons, Option.map_eq_none', ih]
      constructor
      · rintro hn (rfl | h2)
        · exact h rfl
        · exact hn h2
      · exact fun hn h2 => hn (Or.inr h2)

theorem firstIdx_eq_some_iff (t : String) (xs : List String) (n : Nat) :
    firstIdx t xs = some n ↔
      xs[n]? = some t ∧ ∀ j < n, xs[j]? ≠ some t := by
  induction xs generalizing n with
  | nil => simp [firstIdx]
  | cons a rest ih =>
    by_cases h : a = t
    · subst h
      constructor
      · intro hf
        simp [firstIdx] at hf
        subst hf
        simp
      · intro ⟨hget, hlt⟩
        match n with
        | 0 => simp [firstIdx]
        | n + 1 => exact absurd (by simp) (hlt 0 (Nat.succ_pos n))
    · constructor
      · intro hf
        simp [firstIdx, h] at hf
        obtain ⟨m, hm, rfl⟩ := hf
        obtain ⟨hget, hlt⟩ := (ih m).mp hm
        refine ⟨by simpa using hget, ?_⟩
        intro j hj
        match j with
        | 0 => simpa using fun h' => h h'
        | j + 1 =>
          simp only [List.getElem?_cons_succ]
          exact hlt j (Nat.lt_of_succ_lt_succ hj)
      · intro ⟨hget, hlt⟩
        match n with
        | 0 => simp at hget; exact absurd hget h
        | n + 1 =>
          simp only [List.getElem?_cons_succ] at hget
          have hrest : firstIdx t rest = some n := by
            refine (ih n).mpr ⟨hget, ?_⟩
            intro j hj
            have := hlt (j + 1) (Nat.succ_lt_succ hj)
            simpa using this
          simp [firstIdx, h, hrest]

theorem qIndexOf_eq_natCast (t : String) (xs : List String) (n : Nat)
    (h : firstIdx t xs = some n) : qIndexOf t xs = (n : Int) := by
  simp [qIndexOf, h]

theorem qIndexOf_eq_neg_one (t : String) (xs : List String)
    (h : t ∉ xs) : qIndexOf t xs = -1 := by
  simp [qIndexOf, (firstIdx_eq_none_iff t xs).mpr h]

/-- C1: if `"--spawn"` occurs and its first occurrence (index `i`) comes
before any `"--"` token, the partition takes every token up to and
including the first `"--spawn"` as `launcherArgs`, every later token
verbatim as `spawnArgs` (later `"--"` tokens included), and leaves
`neovimArgs` equal to the fixed two-token true-color directive. -/
theorem C1_spawn_partition (raw : List String) (i : Nat)
    (hi : raw[i]? = some "--spawn")
    (hfirst : ∀ j < i, raw[j]? ≠ some "--spawn")
    (hmark : ∀ j ≤ i, raw[j]? ≠ some "--") :
    (partition raw).launcherArgs = raw.take (i + 1) ∧
    (partition raw).spawnArgs = raw.drop (i + 1) ∧
    (partition raw).neovimArgs = ["--cmd", "set termguicolors"] := by
  have hs : qIndexOf "--spawn" raw = (i : Int) :=
    qIndexOf_eq_natCast _ _ _ ((firstIdx_eq_some_iff _ _ _).mpr ⟨hi, hfirst⟩)
  have hcond : qIndexOf "--spawn" raw ≠ -1 ∧
      (qIndexOf "--spawn" raw < qIndexOf "--" raw ∨ qIndexOf "--" raw = -1) := by
    refine ⟨by rw [hs]; omega, ?_⟩
    cases hm : firstIdx "--" raw with
    | none => exact Or.inr (by simp [qIndexOf, hm])
    | some m =>
      obtain ⟨hg, -⟩ := (firstIdx_eq_some_iff _ _ _).mp hm
      have him : i < m := by
        by_contra hle
        push_neg at hle
        exact hmark m hle hg
      refine Or.inl ?_
      rw [hs, qIndexOf_eq_natCast _ _ _ hm]
      exact_mod_cast him
  rw [partition, if_pos hcond]
  refine ⟨?_, ?_, rfl⟩ <;> simp [hs]

/-- C1 witness: a concrete vector with `"--spawn"` at index 1 and a later
`"--"`, which is forwarded inside `spawnArgs` verbatim. -/
theorem C1_spawn_partition_witness :
    (partition ["nvim-qt", "--spawn", "nvim", "--", "file"]).launcherArgs
        = ["nvim-qt", "--spawn"] ∧
    (partition ["nvim-qt", "--spawn", "nvim", "--", "file"]).spawnArgs
        = ["nvim", "--", "file"] ∧
    (partition ["nvim-qt", "--spawn", "nvim", "--", "file"]).neovimArgs
        = ["--cmd", "set termguicolors"] := by
  have h := C1_spawn_partition ["nvim-qt", "--spawn", "nvim", "--", "file"] 1
    (by decide) (by decide) (by decide)
  exact ⟨h.1.trans (by decide), h.2.1.trans (by decide), h.2.2⟩

/-- C3: if `"--"` occurs (first occurrence at index `p`) and no `"--spawn"`
occurs before it, the partition takes every token before the first `"--"`
as `launcherArgs`, appends every token after it to `neovimArgs` behind the
fixed directive, and leaves `spawnArgs` empty. -/
theorem C3_positional_partition (raw : List String) (p : Nat)
    (hp : raw[p]? = some "--")
    (hfirst : ∀ j < p, raw[j]? ≠ some "--")
    (hnospawn : ∀ j < p, raw[j]? ≠ some "--spawn") :
    (partition raw).launcherArgs = raw.take p ∧
    (partition raw).spawnArgs = [] ∧
    (partition raw).neovimArgs = ["--cmd", "set termguicolors"] ++ raw.drop (p + 1) := by
  have hm : qIndexOf "--" raw = (p : Int) :=
    qIndexOf_eq_natCast _ _ _ ((firstIdx_eq_some_iff _ _ _).mpr ⟨hp, hfirst⟩)
  have hncond : ¬ (qIndexOf "--spawn" raw ≠ -1 ∧
      (qIndexOf "--spawn" raw < qIndexOf "--" raw ∨ qIndexOf "--" raw = -1)) := by
    rintro ⟨hne, hlt | habs⟩
    · cases hsp : firstIdx "--spawn" raw with
      | none => exact hne (by simp [qIndexOf, hsp])
      | some s =>
        obtain ⟨hg, -⟩ := (firstIdx_eq_some_iff _ _ _).mp hsp
        rw [hm, qIndexOf_eq_natCast _ _ _ hsp] at hlt
        have hsplt : s < p := by exact_mod_cast hlt
        exact hnospawn s hsplt hg
    · rw [hm] at habs
      omega
  have hne2 : qIndexOf "--" raw ≠ -1 := by rw [hm]; omega
  rw [partition, if_neg hncond, if_pos hne2]
  refine ⟨?_, rfl, ?_⟩ <;> simp [hm, fixedDirective]

/-- C3 witness: a concrete vector whose first `"--"` is at index 2, with a
`"--spawn"` occurring only after it (so the positional branch is taken). -/
theorem C3_positional_partition_witness :
    (partition ["nvim-qt", "a.txt", "--", "--spawn", "-u"]).launcherArgs
        = ["nvim-qt", "a.txt"] ∧
    (partition ["nvim-qt", "a.txt", "--", "--spawn", "-u"]).spawnArgs = [] ∧
    (partition ["nvim-qt", "a.txt", "--", "--spawn", "-u"]).neovimArgs
        = ["--cmd", "set termguicolors", "--spawn", "-u"] := by
  have h := C3_positional_partition ["nvim-qt", "a.txt", "--", "--spawn", "-u"] 2
    (by decide) (by decide) (by decide)
  exact ⟨h.1.trans (by decide), h.2.1, h.2.2.trans (by decide)⟩

/-- C4: with neither `"--spawn"` nor `"--"` present, the whole raw vector
is `launcherArgs`, `spawnArgs` is empty and `neovimArgs` is exactly the
fixed two-token directive. -/
theorem C4_no_marker_partition (raw : List String)
    (h1 : "--spawn" ∉ raw) (h2 : "--" ∉ raw) :
    (partition raw).launcherArgs = raw ∧
    (partition raw).spawnArgs = [] ∧
    (partition raw).neovimArgs = ["--cmd", "set termguicolors"] := by
  have hs := qIndexOf_eq_neg_one _ _ h1
  have hm := qIndexOf_eq_neg_one _ _ h2
  rw [partition, if_neg (by simp [hs]), if_neg (by simp [hm])]
  exact ⟨rfl, rfl, rfl⟩

/-- C4 witness: a concrete vector with no marker tokens. -/
theorem C4_no_marker_partition_witness :
    (partition ["nvim-qt", "--maximized", "a.txt"]).launcherArgs
        = ["nvim-qt", "--maximized", "a.txt"] ∧
    (partition ["nvim-qt", "--maximized", "a.txt"]).spawnArgs = [] ∧
    (partition ["nvim-qt", "--maximized", "a.txt"]).neovimArgs
        = ["--cmd", "set termguicolors"] :=
  C4_no_marker_partition ["nvim-qt", "--maximized", "a.txt"]
    (by decide) (by decide)

/-- C2 (amended): when flag parsing succeeds, the help option is not set,
and more than one of `--embed`, `--server`, `--spawn` is recognized, the
run terminates with the mutual-exclusivity configuration error (warning
plus usage text), before any mode-specific validation and before any
transport is opened or subprocess started (the result is an error, never a
`Transport`). -/
theorem C2_mutual_exclusion (isDir : String → Bool) (envRuntime : String)
    (ctRuntime : Option String) (relDir : String) (raw : List String)
    (ps : ParserState)
    (hp : processArgs (partition raw).launcherArgs = .ok ps)
    (hh : ps.help = false)
    (hx : b2n ps.server.isSome + b2n ps.embed + b2n ps.spawn > 1) :
    runMain isDir envRuntime ctRuntime relDir raw =
      .error (.configError
        "Options --server, --spawn and --embed are mutually exclusive\n") := by
  simp only [runMain, hp, hh]
  rw [if_neg (by simp), if_pos hx]

/-- C2 witness: `--embed` and `--server` together, no help flag. -/
theorem C2_mutual_exclusion_witness :
    runMain noDir "" none "" ["nvim-qt", "--embed", "--server", "addr"] =
      .error (.configError
        "Options --server, --spawn and --embed are mutually exclusive\n") :=
  C2_mutual_exclusion noDir "" none "" ["nvim-qt", "--embed", "--server", "addr"]
    { embed := true, server := some "addr" } rfl rfl (by decide)

/-- C2 counterexample: with `--help` also present, both `--embed` and
`--server` are recognized by flag parsing, yet the run exits through the
help path (usage text, exit code 0, no warning) before the
mutual-exclusivity check: it does not fail with a configuration error. -/
theorem C2_counterexample :
    processArgs (partition ["nvim-qt", "--help", "--embed", "--server", "x"]).launcherArgs
        = .ok { help := true, embed := true, server := some "x" } ∧
    runMain noDir "" none "" ["nvim-qt", "--help", "--embed", "--server", "x"]
        = .error .helpExit ∧
    ∀ msg, runMain noDir "" none "" ["nvim-qt", "--help", "--embed", "--server", "x"]
        ≠ .error (.configError msg) := by
  refine ⟨rfl, rfl, ?_⟩
  intro msg h
  injection h with h2
  exact RunExit.noConfusion h2

/-- C5 (amended): when flag parsing succeeds, the help option is not set,
and `--embed` (or `--server`) is set together with at least one positional
argument or at least one post-`"--"`-marker argument, the run terminates
with a configuration error (the embed/server rejection, or the
mutual-exclusivity error when several mode flags are set — both are
warning-plus-usage exits) and the stdin/stdout connection is never
created. -/
theorem C5_embed_server_reject_positionals (isDir : String → Bool)
    (envRuntime : String) (ctRuntime : Option String) (relDir : String)
    (raw : List String) (ps : ParserState)
    (hp : processArgs (partition raw).launcherArgs = .ok ps)
    (hh : ps.help = false)
    (hm : ps.embed = true ∨ ps.server.isSome = true)
    (hpos : ps.positional ≠ [] ∨
      ((partition raw).positionalMarker ≠ -1 ∧
        raw.drop ((partition raw).positionalMarker.toNat + 1) ≠ [])) :
    (∃ msg, runMain isDir envRuntime ctRuntime relDir raw =
        .error (.configError msg)) ∧
    runMain isDir envRuntime ctRuntime relDir raw ≠ .ok .stdinOut := by
  have hcond : ¬ ps.positional.isEmpty = true ∨
      (partition raw).positionalMarker ≠ -1 := by
    rcases hpos with h | ⟨h, -⟩
    · exact Or.inl (by simpa [List.isEmpty_iff] using h)
    · exact Or.inr h
  suffices hs : ∃ msg, runMain isDir envRuntime ctRuntime relDir raw =
      .error (.configError msg) by
    obtain ⟨msg, hmsg⟩ := hs
    exact ⟨⟨msg, hmsg⟩, by rw [hmsg]; exact fun h => Except.noConfusion h⟩
  by_cases hx : b2n ps.server.isSome + b2n ps.embed + b2n ps.spawn > 1
  · refine ⟨"Options --server, --spawn and --embed are mutually exclusive\n", ?_⟩
    simp only [runMain, hp]
    rw [if_neg (by simp [hh]), if_pos hx]
  · rcases hm with hembed | hserver
    · refine ⟨"--embed does not accept positional arguments\n", ?_⟩
      simp only [runMain, hp]
      rw [if_neg (by simp [hh]), if_neg hx, if_pos hembed, if_pos hcond]
    · have hembedF : ps.embed = false := by
        cases hpe : ps.embed
        · rfl
        · refine absurd ?_ hx
          rw [hserver, hpe]
          cases ps.spawn <;> decide
      refine ⟨"--server does not accept positional arguments\n", ?_⟩
      simp only [runMain, hp]
      rw [if_neg (by simp [hh]), if_neg hx, if_neg (by simp [hembedF]),
        if_pos hserver, if_pos hcond]

/-- C5 witness: `--embed` with one positional file argument. -/
theorem C5_embed_server_reject_positionals_witness :
    (∃ msg, runMain noDir "" none "" ["nvim-qt", "--embed", "f"] =
        .error (.configError msg)) ∧
    runMain noDir "" none "" ["nvim-qt", "--embed", "f"] ≠ .ok .stdinOut :=
  C5_embed_server_reject_positionals noDir "" none ""
    ["nvim-qt", "--embed", "f"] { embed := true, positional := ["f"] }
    rfl rfl (Or.inl rfl) (Or.inl (by decide))

/-- C5 counterexample: with `-h` also present, `--embed` is set together
with a positional argument, yet the run exits through the help path (exit
code 0, no warning) instead of failing with a configuration error. -/
theorem C5_counterexample :
    processArgs (partition ["nvim-qt", "--embed", "-h", "f"]).launcherArgs
        = .ok { embed := true, help := true, positional := ["f"] } ∧
    runMain noDir "" none "" ["nvim-qt", "--embed", "-h", "f"]
        = .error .helpExit ∧
    ∀ msg, runMain noDir "" none "" ["nvim-qt", "--embed", "-h", "f"]
        ≠ .error (.configError msg) := by
  refine ⟨rfl, rfl, ?_⟩
  intro msg h
  injection h with h2
  exact RunExit.noConfusion h2

/-- C6 (amended): when flag parsing succeeds, `--spawn` is recognized, and
neither the help option nor another mode flag is set, an empty `spawnArgs`
is a configuration error (no subprocess is started), and a non-empty
`spawnArgs` spawns its first element as the executable with the remaining
elements as its arguments. -/
theorem C6_spawn_args (isDir : String → Bool) (envRuntime : String)
    (ctRuntime : Option String) (relDir : String) (raw : List String)
    (ps : ParserState)
    (hp : processArgs (partition raw).launcherArgs = .ok ps)
    (hh : ps.help = false) (he : ps.embed = false) (hs : ps.server = none)
    (hsp : ps.spawn = true) :
    ((partition raw).spawnArgs = [] →
      runMain isDir envRuntime ctRuntime relDir raw =
        .error (.configError "--spawn requires at least one positional argument")) ∧
    ∀ exe rest, (partition raw).spawnArgs = exe :: rest →
      runMain isDir envRuntime ctRuntime relDir raw =
        .ok (.spawnProc rest exe) := by
  have hrun : runMain isDir envRuntime ctRuntime relDir raw =
      (match (partition raw).spawnArgs with
        | [] => .error (.configError "--spawn requires at least one positional argument")
        | exe :: restArgs => .ok (.spawnProc restArgs exe)) := by
    simp only [runMain, hp]
    rw [if_neg (by simp [hh]), if_neg (by simp [b2n, hs, he, hsp]),
      if_neg (by simp [he]), if_neg (by simp [hs]), if_pos hsp]
  refine ⟨fun hemp => ?_, fun exe rest hcons => ?_⟩
  · rw [hrun, hemp]
  · rw [hrun, hcons]

/-- C6 witness: `--spawn` with no following token is rejected; with
following tokens the first is the executable and the rest its arguments. -/
theorem C6_spawn_args_witness :
    runMain noDir "" none "" ["nvim-qt", "--spawn"] =
      .error (.configError "--spawn requires at least one positional argument") ∧
    runMain noDir "" none "" ["nvim-qt", "--spawn", "myexe", "-x"] =
      .ok (.spawnProc ["-x"] "myexe") :=
  ⟨(C6_spawn_args noDir "" none "" ["nvim-qt", "--spawn"] { spawn := true }
      rfl rfl rfl rfl rfl).1 rfl,
   (C6_spawn_args noDir "" none "" ["nvim-qt", "--spawn", "myexe", "-x"]
      { spawn := true } rfl rfl rfl rfl rfl).2 "myexe" ["-x"] rfl⟩

/-- C6 counterexample: `-h` before `--spawn` — the spawn flag is recognized
and `spawnArgs` is empty, yet the run exits through the help path rather
than with the spawn configuration error. -/
theorem C6_counterexample :
    processArgs (partition ["nvim-qt", "-h", "--spawn"]).launcherArgs
        = .ok { spawn := true, help := true } ∧
    (partition ["nvim-qt", "-h", "--spawn"]).spawnArgs = [] ∧
    runMain noDir "" none "" ["nvim-qt", "-h", "--spawn"] = .error .helpExit ∧
    ∀ msg, runMain noDir "" none "" ["nvim-qt", "-h", "--spawn"]
        ≠ .error (.configError msg) := by
  refine ⟨rfl, rfl, rfl, ?_⟩
  intro msg h
  injection h with h2
  exact RunExit.noConfusion h2

/-- C10: in Embed or Server mode (the respective flag set, no other mode
flag, no help), a `"--"` marker anywhere in the raw vector triggers the
positional-argument rejection even when zero tokens follow the marker and
no positional arguments were supplied: the check tests marker presence,
not post-marker content. -/
theorem C10_marker_presence_rejected (isDir : String → Bool)
    (envRuntime : String) (ctRuntime : Option String) (relDir : String)
    (raw : List String) (ps : ParserState)
    (hp : processArgs (partition raw).launcherArgs = .ok ps)
    (hh : ps.help = false) (hsp : ps.spawn = false)
    (hmode : (ps.embed = true ∧ ps.server = none) ∨
      (ps.embed = false ∧ ps.server.isSome = true))
    (hposi : ps.positional = [])
    (hmark : (partition raw).positionalMarker ≠ -1)
    (hzero : raw.drop ((partition raw).positionalMarker.toNat + 1) = []) :
    runMain isDir envRuntime ctRuntime relDir raw =
        .error (.configError "--embed does not accept positional arguments\n") ∨
    runMain isDir envRuntime ctRuntime relDir raw =
        .error (.configError "--server does not accept positional arguments\n") := by
  rcases hmode with ⟨he, hs⟩ | ⟨he, hs⟩
  · left
    simp only [runMain, hp]
    rw [if_neg (by simp [hh]), if_neg (by simp [b2n, he, hs, hsp]),
      if_pos he, if_pos (Or.inr hmark)]
  · right
    simp only [runMain, hp]
    rw [if_neg (by simp [hh]), if_neg (by simp [b2n, he, hs, hsp]),
      if_neg (by simp [he]), if_pos hs, if_pos (Or.inr hmark)]

/-- C10 witness: `--embed` followed by a bare trailing `"--"` (zero tokens
after the marker, no positionals) is rejected. -/
theorem C10_marker_presence_rejected_witness :
    runMain noDir "" none "" ["nvim-qt", "--embed", "--"] =
        .error (.configError "--embed does not accept positional arguments\n") ∨
    runMain noDir "" none "" ["nvim-qt", "--embed", "--"] =
        .error (.configError "--server does not accept positional arguments\n") :=
  C10_marker_presence_rejected noDir "" none "" ["nvim-qt", "--embed", "--"]
    { embed := true } rfl rfl rfl (Or.inl ⟨rfl, rfl⟩) rfl (by decide) (by decide)

/-- C7: in Default mode, when the environment override names an existing
directory, its runtime-path tokens are injected even when a compile-time
default directory also exists and differs, and the relative-to-executable
candidate is never consulted (the result does not depend on it). -/
theorem C7_runtime_env_priority (isDir : String → Bool)
    (envRuntime ct relDir relDir2 : String) (raw : List String)
    (ps : ParserState)
    (hp : processArgs (partition raw).launcherArgs = .ok ps)
    (hh : ps.help = false) (he : ps.embed = false) (hs : ps.server = none)
    (hsp : ps.spawn = false)
    (hEnv : isDir envRuntime = true) (hCt : isDir ct = true)
    (hNe : ct ≠ envRuntime) :
    runMain isDir envRuntime (some ct) relDir raw =
      .ok (.spawnProc
        (("--cmd" :: ("set rtp+=" ++ envRuntime) :: (partition raw).neovimArgs)
          ++ ps.positional)
        (ps.nvim.getD "nvim")) ∧
    runMain isDir envRuntime (some ct) relDir2 raw =
      runMain isDir envRuntime (some ct) relDir raw := by
  have hmain : ∀ rel, runMain isDir envRuntime (some ct) rel raw =
      .ok (.spawnProc
        (("--cmd" :: ("set rtp+=" ++ envRuntime) :: (partition raw).neovimArgs)
          ++ ps.positional)
        (ps.nvim.getD "nvim")) := by
    intro rel
    have hres : injectRuntimeTokens isDir envRuntime (some ct) rel
        (partition raw).neovimArgs =
        "--cmd" :: ("set rtp+=" ++ envRuntime) :: (partition raw).neovimArgs := by
      simp [injectRuntimeTokens, hEnv]
    simp only [runMain, hp]
    rw [if_neg (by simp [hh]), if_neg (by simp [b2n, hs, he, hsp]),
      if_neg (by simp [he]), if_neg (by simp [hs]), if_neg (by simp [hsp]),
      hres]
  exact ⟨hmain relDir, (hmain relDir2).trans (hmain relDir).symm⟩

/-- C7 witness: the environment override `/env` and the compile-time
default `/ct` both exist and differ; `/env` wins and the result is the
same for two different relative-to-executable candidates. -/
theorem C7_runtime_env_priority_witness :
    runMain dirOracle "/env" (some "/ct") "/rel" ["nvim-qt"] =
      .ok (.spawnProc ["--cmd", "set rtp+=/env", "--cmd", "set termguicolors"]
        "nvim") ∧
    runMain dirOracle "/env" (some "/ct") "/rel2" ["nvim-qt"] =
      runMain dirOracle "/env" (some "/ct") "/rel" ["nvim-qt"] := by
  have h := C7_runtime_env_priority dirOracle "/env" "/ct" "/rel" "/rel2"
    ["nvim-qt"] {} rfl rfl rfl rfl rfl rfl rfl (by decide)
  exact ⟨h.1.trans (by decide), h.2⟩

/-- C8: in Default mode, when no candidate of the fallback chain is an
existing directory, resolution yields `none` and no `--cmd`/`set rtp+=`
tokens are prepended: `neovimArgs` is passed through unchanged (followed
by the positional file arguments). -/
theorem C8_runtime_none (isDir : String → Bool) (envRuntime : String)
    (ctRuntime : Option String) (relDir : String) (raw : List String)
    (ps : ParserState)
    (hp : processArgs (partition raw).launcherArgs = .ok ps)
    (hh : ps.help = false) (he : ps.embed = false) (hs : ps.server = none)
    (hsp : ps.spawn = false)
    (hEnv : isDir envRuntime = false)
    (hCt : ∀ c, ctRuntime = some c → isDir c = false)
    (hRel : isDir relDir = false) :
    resolveRuntime isDir envRuntime ctRuntime relDir = none ∧
    runMain isDir envRuntime ctRuntime relDir raw =
      .ok (.spawnProc ((partition raw).neovimArgs ++ ps.positional)
        (ps.nvim.getD "nvim")) := by
  have hres : resolveRuntime isDir envRuntime ctRuntime relDir = none := by
    cases hct : ctRuntime with
    | none => simp [resolveRuntime, hEnv, hRel]
    | some c => simp [resolveRuntime, hEnv, hRel, hCt c hct]
  have hinj : injectRuntimeTokens isDir envRuntime ctRuntime relDir
      (partition raw).neovimArgs = (partition raw).neovimArgs := by
    cases hct : ctRuntime with
    | none => simp [injectRuntimeTokens, hEnv, hRel]
    | some c => simp [injectRuntimeTokens, hEnv, hRel, hCt c hct]
  refine ⟨hres, ?_⟩
  simp only [runMain, hp]
  rw [if_neg (by simp [hh]), if_neg (by simp [b2n, hs, he, hsp]),
    if_neg (by simp [he]), if_neg (by simp [hs]), if_neg (by simp [hsp]),
    hinj]

/-- C8 witness: no candidate exists; the spawned arguments are exactly the
fixed directive followed by the positional file argument. -/
theorem C8_runtime_none_witness :
    resolveRuntime noDir "" (some "/ct") "/rel" = none ∧
    runMain noDir "" (some "/ct") "/rel" ["nvim-qt", "f"] =
      .ok (.spawnProc ["--cmd", "set termguicolors", "f"] "nvim") := by
  have h := C8_runtime_none noDir "" (some "/ct") "/rel" ["nvim-qt", "f"]
    { positional := ["f"] } rfl rfl rfl rfl rfl rfl (fun c hc => rfl) rfl
  exact ⟨h.1, h.2.trans (by decide)⟩

theorem injectRuntimeTokens_eq_of_ct (isDir : String → Bool)
    (envRuntime ct relDir : String) (nArgs : List String) :
    injectRuntimeTokens isDir envRuntime (some ct) relDir nArgs =
      injectRuntime (resolveRuntime isDir envRuntime (some ct) relDir) nArgs := by
  by_cases h1 : isDir envRuntime <;> by_cases h2 : isDir ct <;>
    by_cases h3 : isDir relDir <;>
      simp [injectRuntimeTokens, injectRuntime, resolveRuntime, h1, h2, h3]

/-- C9 (amended): when flag parsing succeeds and none of `--embed`,
`--server`, `--spawn` — nor the help option — is set, the run spawns a
subprocess whose arguments are the tokens inserted by the runtime-path
fallback logic (lines 167-199) prepended to `neovimArgs`, followed by all
positional file arguments, and whose executable is the `--nvim` option
value (the literal `"nvim"` when unset). In a build that defines the
compile-time default, the inserted tokens are exactly the resolution
result (one directive pair, or nothing); in a macro-undefined build the
environment and executable-relative candidates are tested independently
(the block at lines 180-199 runs unconditionally), so each existing one
inserts its own pair. -/
theorem C9_default_mode (isDir : String → Bool) (envRuntime : String)
    (ctRuntime : Option String) (relDir : String) (raw : List String)
    (ps : ParserState)
    (hp : processArgs (partition raw).launcherArgs = .ok ps)
    (hh : ps.help = false) (he : ps.embed = false) (hs : ps.server = none)
    (hsp : ps.spawn = false) :
    runMain isDir envRuntime ctRuntime relDir raw =
      .ok (.spawnProc
        (injectRuntimeTokens isDir envRuntime ctRuntime relDir
          (partition raw).neovimArgs ++ ps.positional)
        (ps.nvim.getD "nvim")) ∧
    ∀ ct, ctRuntime = some ct →
      injectRuntimeTokens isDir envRuntime ctRuntime relDir
          (partition raw).neovimArgs =
        injectRuntime (resolveRuntime isDir envRuntime ctRuntime relDir)
          (partition raw).neovimArgs := by
  constructor
  · simp only [runMain, hp]
    rw [if_neg (by simp [hh]), if_neg (by simp [b2n, hs, he, hsp]),
      if_neg (by simp [he]), if_neg (by simp [hs]), if_neg (by simp [hsp])]
  · rintro ct rfl
    exact injectRuntimeTokens_eq_of_ct isDir envRuntime ct relDir
      (partition raw).neovimArgs

/-- C9 witness: with `--nvim mynvim` the spawned executable is `mynvim`;
without the option it is the literal `"nvim"`; and in a macro-undefined
build where both the environment override and the relative candidate are
existing directories, both pairs are inserted, the relative pair first. -/
theorem C9_default_mode_witness :
    runMain noDir "" none "" ["nvim-qt", "--nvim", "mynvim", "f"] =
      .ok (.spawnProc ["--cmd", "set termguicolors", "f"] "mynvim") ∧
    runMain noDir "" none "" ["nvim-qt"] =
      .ok (.spawnProc ["--cmd", "set termguicolors"] "nvim") ∧
    runMain envRelOracle "/env" none "/rel" ["nvim-qt"] =
      .ok (.spawnProc ["--cmd", "set rtp+=/rel", "--cmd", "set rtp+=/env",
        "--cmd", "set termguicolors"] "nvim") := by
  have h1 := C9_default_mode noDir "" none "" ["nvim-qt", "--nvim", "mynvim", "f"]
    { nvim := some "mynvim", positional := ["f"] } rfl rfl rfl rfl rfl
  have h2 := C9_default_mode noDir "" none "" ["nvim-qt"] {} rfl rfl rfl rfl rfl
  have h3 := C9_default_mode envRelOracle "/env" none "/rel" ["nvim-qt"] {}
    rfl rfl rfl rfl rfl
  exact ⟨h1.1.trans (by decide), h2.1.trans (by decide), h3.1.trans (by decide)⟩

/-- C9 counterexample: with `--help` none of the three mode flags is set,
yet no subprocess is spawned — the run exits through the help path. -/
theorem C9_counterexample :
    processArgs (partition ["nvim-qt", "--help"]).launcherArgs
        = .ok { help := true } ∧
    runMain noDir "" none "" ["nvim-qt", "--help"] = .error .helpExit ∧
    ∀ args exe, runMain noDir "" none "" ["nvim-qt", "--help"]
        ≠ .ok (.spawnProc args exe) := by
  refine ⟨rfl, rfl, ?_⟩
  intro args exe h
  have h2 : (Except.error RunExit.helpExit : Except RunExit Transport)
      = .ok (.spawnProc args exe) := h
  exact Except.noConfusion h2

end NeovimQt
